import Mathlib

/-!
Verification of the SafeTrade incident-reporting application:
the community alert classifier (`ComunidadController.determineAlertLevel`),
the admin-portal catalog resolution and report/filter translation layer
(`AdminAPIService`, `ReportTransformer`), the backend `AnonymousAuthGuard`
and the mobile `ReportsListViewModel.applyFilters`, shallowly embedded
from the TypeScript / Swift sources.  Numeric values are modelled as exact
rationals; the JavaScript special values NaN and Infinity that can arise
in the alert computation are modelled explicitly by the `JSNum` type.
-/

namespace SafeTrade

/-- The three community alert levels returned by
`ComunidadController.determineAlertLevel`. -/
inductive AlertLevel where
  | verde
  | amarillo
  | rojo
deriving DecidableEq, Repr

/-- JavaScript number values reachable in the alert-level computation:
ordinary (rational-valued) numbers, NaN (from `0/0`) and +Infinity
(from `x/0` with `x > 0`). -/
inductive JSNum where
  | num (q : ℚ)
  | nan
  | inf
deriving DecidableEq, Repr

/-- JavaScript division of the two non-negative counts that feed the
classifier: `0/0` is NaN, `x/0` with `x > 0` is Infinity, otherwise the
exact quotient. -/
def jsDivNat (a b : ℕ) : JSNum :=
  if b = 0 then (if a = 0 then JSNum.nan else JSNum.inf)
  else JSNum.num ((a : ℚ) / (b : ℚ))

/-- JavaScript multiplication of a number by the literal `100`
(`NaN * 100 = NaN`, `Infinity * 100 = Infinity`). -/
def jsMul100 : JSNum → JSNum
  | JSNum.num q => JSNum.num (q * 100)
  | JSNum.nan => JSNum.nan
  | JSNum.inf => JSNum.inf

/-- JavaScript comparison `x > c` against a finite threshold: every
comparison on NaN is false, `Infinity > c` is true. -/
def jsGt (x : JSNum) (c : ℚ) : Bool :=
  match x with
  | JSNum.num q => decide (c < q)
  | JSNum.nan => false
  | JSNum.inf => true

/-- The `community_overview` fields of the analytics payload that
`determineAlertLevel` reads. -/
structure CommunityOverview where
  highest_impact_count : ℕ
  total_reports : ℕ
deriving DecidableEq, Repr

/-- One entry of the `attack_trends` distribution of the trends payload
(`{attack_type, name, count, percentage}`). -/
structure TrendEntry where
  id : ℕ
  name : String
  count : ℕ
  percentage : ℚ
deriving DecidableEq, Repr

/-- `tendencias.attack_trends?.[0]?.percentage || 0`: the percentage of
the first entry of the attack-type distribution, `0` when the list is
absent or empty.  (A percentage of `0` is falsy in JavaScript and is
replaced by the literal `0`, which is the same value; percentages are
modelled as rationals, so no NaN can occur here.) -/
def topAttackPercentage (attack_trends : List TrendEntry) : ℚ :=
  match attack_trends.head? with
  | some t => t.percentage
  | none => 0

/-- `ComunidadController.determineAlertLevel`, embedded from
`comunidad.controller.ts`: the high-impact percentage is
`(highest_impact_count / total_reports) * 100` in JavaScript float
semantics (no special case for `total_reports = 0`), the top attack
percentage is the first entry of `attack_trends` (or `0`), and the
thresholds use strict `>`. -/
def determineAlertLevel (analytics : CommunityOverview)
    (attack_trends : List TrendEntry) : AlertLevel :=
  let highImpactPercentage :=
    jsMul100 (jsDivNat analytics.highest_impact_count analytics.total_reports)
  let top := topAttackPercentage attack_trends
  if jsGt highImpactPercentage 40 || decide (60 < top) then AlertLevel.rojo
  else if jsGt highImpactPercentage 20 || decide (40 < top) then AlertLevel.amarillo
  else AlertLevel.verde

/-- The high-impact percentage as the classifier computes it (before the
threshold comparisons). -/
def highImpactPercentageJS (analytics : CommunityOverview) : JSNum :=
  jsMul100 (jsDivNat analytics.highest_impact_count analytics.total_reports)

/-- One catalog row: `{id: number, name: string}` (attack types, impact
levels, report statuses). -/
structure CatalogEntry where
  id : ℕ
  name : String
deriving DecidableEq, Repr

/-- The `CatalogData` shape held by `AdminAPIService.catalogCache`. -/
structure CatalogData where
  attackTypes : List CatalogEntry
  impacts : List CatalogEntry
  statuses : List CatalogEntry
deriving DecidableEq, Repr

/-- The `CatalogMaps` id-to-name lookup maps; a JavaScript `Map<number,
string>` is modelled as an association list with first-match lookup. -/
structure CatalogMaps where
  attackTypeMap : List (ℕ × String)
  impactMap : List (ℕ × String)
  statusMap : List (ℕ × String)
deriving DecidableEq, Repr

/-- `Map.get(id)`: the value for the key, or undefined (`none`). -/
def mapGet (m : List (ℕ × String)) (i : ℕ) : Option String :=
  (m.find? (fun p => p.1 == i)).map (fun p => p.2)

/-- `maps.xMap.get(id) || 'Desconocido'` (AdminAPIService lines 188-201):
an absent key gives undefined, which is falsy, so the literal fallback
string is returned.  (An empty-string name is also falsy in JavaScript
and is likewise replaced.) -/
def nameOrDesconocido (m : List (ℕ × String)) (i : ℕ) : String :=
  match mapGet m i with
  | some n => if n = "" then "Desconocido" else n
  | none => "Desconocido"

/-- Modelled from the spec: `CatalogUtils.createLookupMaps`
(`utils/catalogUtils.ts` is not under `src/`); it builds the id-to-name
lookup map of each of the three catalog lists. -/
def createLookupMaps (c : CatalogData) : CatalogMaps :=
  { attackTypeMap := c.attackTypes.map (fun e => (e.id, e.name))
    impactMap := c.impacts.map (fun e => (e.id, e.name))
    statusMap := c.statuses.map (fun e => (e.id, e.name)) }

/-- Modelled from the spec: `CatalogUtils.createDefaultCatalogs`
(`utils/catalogUtils.ts` is not under `src/`); the built-in default
catalog holds the six seeded attack types, four impact levels and four
statuses of the database seed data. -/
def createDefaultCatalogs : CatalogData :=
  { attackTypes := [⟨1, "email"⟩, ⟨2, "SMS"⟩, ⟨3, "whatsapp"⟩, ⟨4, "llamada"⟩,
      ⟨5, "redes_sociales"⟩, ⟨6, "otro"⟩]
    impacts := [⟨1, "ninguno"⟩, ⟨2, "robo_datos"⟩, ⟨3, "robo_dinero"⟩,
      ⟨4, "cuenta_comprometida"⟩]
    statuses := [⟨1, "nuevo"⟩, ⟨2, "revisado"⟩, ⟨3, "en_investigacion"⟩,
      ⟨4, "cerrado"⟩] }

/-- The mutable fields of `AdminAPIService` that the catalog cache uses. -/
structure ServiceState where
  catalogCache : Option CatalogData
  catalogMaps : Option CatalogMaps
  lastCacheTime : ℕ
deriving DecidableEq, Repr

/-- A fresh `AdminAPIService` (`catalogCache = null`, `catalogMaps =
null`, `lastCacheTime = 0`). -/
def initialServiceState : ServiceState := ⟨none, none, 0⟩

/-- `CACHE_TIMEOUT = 5 * 60 * 1000` milliseconds (the fixed 5-minute
TTL). -/
def CACHE_TIMEOUT : ℕ := 5 * 60 * 1000

/-- `AdminAPIService.isCacheValid`: `(now - lastCacheTime) <
CACHE_TIMEOUT`.  (Truncated ℕ subtraction agrees with JavaScript here:
when `now < lastCacheTime` both sides classify the cache as valid.) -/
def isCacheValid (st : ServiceState) (now : ℕ) : Bool :=
  decide (now - st.lastCacheTime < CACHE_TIMEOUT)

/-- `AdminAPIService.getCatalogs`, embedded with the network as an
oracle: `fetchResult = some d` is a successful `/reportes/catalogs`
request whose payload passes the structure checks, `none` is a request
failure or an invalid payload (both throw into the catch block).
Returns the catalog data, the updated service state, and whether a
fetch was performed.  On the catch path the default catalogs are
returned but the state (cache, maps, `lastCacheTime`) is left
unchanged. -/
def getCatalogs (st : ServiceState) (now : ℕ) (fetchResult : Option CatalogData) :
    CatalogData × ServiceState × Bool :=
  match st.catalogCache with
  | some c =>
    if isCacheValid st now then (c, st, false)
    else
      match fetchResult with
      | some d => (d, ⟨some d, some (createLookupMaps d), now⟩, true)
      | none => (createDefaultCatalogs, st, true)
  | none =>
    match fetchResult with
    | some d => (d, ⟨some d, some (createLookupMaps d), now⟩, true)
    | none => (createDefaultCatalogs, st, true)

/-- `AdminAPIService.getCatalogMaps`: when `catalogMaps` is null it
calls `getCatalogs` and then returns `this.catalogMaps!` — which is
still null (`none`) when the fetch failed, because the catch path of
`getCatalogs` never stores the fallback maps. -/
def getCatalogMaps (st : ServiceState) (now : ℕ)
    (fetchResult : Option CatalogData) : Option CatalogMaps × ServiceState :=
  match st.catalogMaps with
  | some m => (some m, st)
  | none =>
    let r := getCatalogs st now fetchResult
    (r.2.1.catalogMaps, r.2.1)

/-- Runtime errors of the embedded JavaScript: dereferencing the null
`catalogMaps` (`maps.attackTypeMap` on null) throws a TypeError. -/
inductive JSError where
  | typeError
deriving DecidableEq, Repr

/-- `AdminAPIService.getAttackTypeName`: resolves via `getCatalogMaps`;
throws a TypeError when the maps are null. -/
def getAttackTypeName (st : ServiceState) (now : ℕ)
    (fetchResult : Option CatalogData) (i : ℕ) :
    Except JSError String × ServiceState :=
  match getCatalogMaps st now fetchResult with
  | (some m, st2) => (Except.ok (nameOrDesconocido m.attackTypeMap i), st2)
  | (none, st2) => (Except.error JSError.typeError, st2)

/-- `AdminAPIService.getImpactName`. -/
def getImpactName (st : ServiceState) (now : ℕ)
    (fetchResult : Option CatalogData) (i : ℕ) :
    Except JSError String × ServiceState :=
  match getCatalogMaps st now fetchResult with
  | (some m, st2) => (Except.ok (nameOrDesconocido m.impactMap i), st2)
  | (none, st2) => (Except.error JSError.typeError, st2)

/-- `AdminAPIService.getStatusName`. -/
def getStatusName (st : ServiceState) (now : ℕ)
    (fetchResult : Option CatalogData) (i : ℕ) :
    Except JSError String × ServiceState :=
  match getCatalogMaps st now fetchResult with
  | (some m, st2) => (Except.ok (nameOrDesconocido m.statusMap i), st2)
  | (none, st2) => (Except.error JSError.typeError, st2)

/-- Modelled from the spec: the legacy translation
`toLegacy(normalizedReport, catalogMaps)` that substitutes the three
catalog ids with string names via the supplied maps is not itself under
`src/` (`ReportTransformer.toLegacyReport` consumes precomputed name
fields); per the spec each absent id is substituted by the literal
fallback string "Desconocido" rather than failing.  This definition is
the id-to-name substitution it performs. -/
def toLegacySubstitution (maps : CatalogMaps) (attack_type impact status : ℕ) :
    String × String × String :=
  (nameOrDesconocido maps.attackTypeMap attack_type,
   nameOrDesconocido maps.impactMap impact,
   nameOrDesconocido maps.statusMap status)

/-- The normalized (catalog-id-based) search filter shape
`NormalizedSearchFilters`. -/
structure NormalizedSearchFilters where
  query : Option String
  is_anonymous : Option Bool
  date_from : Option String
  date_to : Option String
  status : Option ℕ
  attack_type : Option ℕ
  impact : Option ℕ
deriving DecidableEq, Repr

/-- The legacy (string-based) search filter shape `SearchFilters`. -/
structure SearchFilters where
  query : Option String
  isAnonymous : Option Bool
  dateFrom : Option String
  dateTo : Option String
  status : Option String
  attackType : Option String
  impactLevel : Option String
deriving DecidableEq, Repr

/-- The conditional id-to-name step of `ReportTransformer.toLegacyFilters`:
`if (normalizedFilters.x) { const e = find(id); if (e) legacy.x = e.name }`.
A JavaScript number field is truthy only when present and nonzero. -/
def findNameById (l : List CatalogEntry) (o : Option ℕ) : Option String :=
  match o with
  | some i =>
    if i = 0 then none
    else (l.find? (fun e => e.id == i)).map (fun e => e.name)
  | none => none

/-- The conditional name-to-id step of
`ReportTransformer.fromLegacyFilters`: `if (legacyFilters.x) { const e =
find(name); if (e) normalized.x = e.id }`.  A JavaScript string field is
truthy only when present and non-empty. -/
def findIdByName (l : List CatalogEntry) (o : Option String) : Option ℕ :=
  match o with
  | some s =>
    if s = "" then none
    else (l.find? (fun e => e.name == s)).map (fun e => e.id)
  | none => none

/-- `ReportTransformer.toLegacyFilters` (AdminAPIService.ts 625-658). -/
def toLegacyFilters (c : CatalogData) (nf : NormalizedSearchFilters) : SearchFilters :=
  { query := nf.query
    isAnonymous := nf.is_anonymous
    dateFrom := nf.date_from
    dateTo := nf.date_to
    status := findNameById c.statuses nf.status
    attackType := findNameById c.attackTypes nf.attack_type
    impactLevel := findNameById c.impacts nf.impact }

/-- `ReportTransformer.fromLegacyFilters` (AdminAPIService.ts 588-621). -/
def fromLegacyFilters (c : CatalogData) (lf : SearchFilters) : NormalizedSearchFilters :=
  { query := lf.query
    is_anonymous := lf.isAnonymous
    date_from := lf.dateFrom
    date_to := lf.dateTo
    status := findIdByName c.statuses lf.status
    attack_type := findIdByName c.attackTypes lf.attackType
    impact := findIdByName c.impacts lf.impactLevel }

/-- The admin-portal `ReportWithDetails` shape as consumed by
`ReportTransformer.toLegacyReport`: the normalized fields plus the three
derived catalog-name fields.  (The `normalized.types` declaration file is
not under `src/`; the fields are taken from the backend `Report` row and
from `toLegacyReport`'s own reads.) -/
structure ReportWithDetails where
  id : ℕ
  user_id : Option ℕ
  attack_type : ℕ
  attack_type_name : String
  impact : ℕ
  impact_name : String
  status : ℕ
  status_name : String
  incident_date : String
  description : Option String
  attack_origin : Option String
  is_anonymous : Bool
  admin_note : Option String
  evidence_url : Option String
  created_at : String
  updated_at : String
deriving DecidableEq, Repr

/-- The legacy report shape produced by
`ReportTransformer.toLegacyReport`. -/
structure LegacyReport where
  id : ℕ
  user_id : Option ℕ
  attack_type : String
  incident_date : String
  impact_level : String
  description : String
  attack_origin : String
  device_info : Option String
  is_anonymous : Bool
  status : String
  admin_notes : Option String
  evidence_urls : List String
  created_at : String
  updated_at : String
deriving DecidableEq, Repr

/-- The normalized report with the derived fields stripped. -/
structure NormalizedReport where
  id : ℕ
  user_id : Option ℕ
  attack_type : ℕ
  impact : ℕ
  status : ℕ
  incident_date : String
  description : Option String
  attack_origin : Option String
  is_anonymous : Bool
  admin_note : Option String
  evidence_url : Option String
  created_at : String
  updated_at : String
deriving DecidableEq, Repr

/-- `ReportTransformer.toLegacyReport` (AdminAPIService.ts 551-568):
copies the precomputed name fields, encodes absent description and
attack origin as empty strings, hardcodes `device_info = null`, and
wraps the single evidence url into a list. -/
def toLegacyReport (r : ReportWithDetails) : LegacyReport :=
  { id := r.id
    user_id := r.user_id
    attack_type := r.attack_type_name
    incident_date := r.incident_date
    impact_level := r.impact_name
    description := r.description.getD ""
    attack_origin := r.attack_origin.getD ""
    device_info := none
    is_anonymous := r.is_anonymous
    status := r.status_name
    admin_notes := r.admin_note
    evidence_urls := match r.evidence_url with
      | some u => [u]
      | none => []
    created_at := r.created_at
    updated_at := r.updated_at }

/-- `stripDerivedFields`: forget the three derived name fields. -/
def stripDerivedFields (r : ReportWithDetails) : NormalizedReport :=
  { id := r.id
    user_id := r.user_id
    attack_type := r.attack_type
    impact := r.impact
    status := r.status
    incident_date := r.incident_date
    description := r.description
    attack_origin := r.attack_origin
    is_anonymous := r.is_anonymous
    admin_note := r.admin_note
    evidence_url := r.evidence_url
    created_at := r.created_at
    updated_at := r.updated_at }

/-- Modelled from the spec: the inverse report translation
`toNormalized(legacyReport, catalogs)` of spec section 4.5 / testable
property 5 has no implementation under `src/`.  Per the spec it
reverse-looks-up each of the three names in the catalog snapshot
(failing when a name has no catalog entry), and it inverts
`toLegacyReport`'s encodings: the empty string stands for an absent
description or attack origin, and the evidence list's head is the
evidence url. -/
def fromLegacyReport (c : CatalogData) (l : LegacyReport) : Option NormalizedReport :=
  match c.attackTypes.find? (fun e => e.name == l.attack_type),
        c.impacts.find? (fun e => e.name == l.impact_level),
        c.statuses.find? (fun e => e.name == l.status) with
  | some a, some i, some s =>
    some { id := l.id
           user_id := l.user_id
           attack_type := a.id
           impact := i.id
           status := s.id
           incident_date := l.incident_date
           description := if l.description = "" then none else some l.description
           attack_origin := if l.attack_origin = "" then none else some l.attack_origin
           is_anonymous := l.is_anonymous
           admin_note := l.admin_notes
           evidence_url := l.evidence_urls.head?
           created_at := l.created_at
           updated_at := l.updated_at }
  | _, _, _ => none

/-- The user profile carried by an access payload. -/
structure UserProfile where
  id : ℕ
  email : String
  name : String
deriving DecidableEq, Repr

/-- A verified JWT payload (`AccessPayload`). -/
structure AccessPayload where
  sub : String
  type : String
  profile : UserProfile
deriving DecidableEq, Repr

/-- The `req.user` object the guard attaches. -/
structure AuthUser where
  userId : String
  profile : UserProfile
  raw : AccessPayload
deriving DecidableEq, Repr

/-- The anonymous profile the guard attaches on missing, malformed or
unverifiable authorization
(`{userId "anonymous", profile {id 0, anonymous@safetrade.com, Usuario Anónimo}}`). -/
def anonymousUser : AuthUser :=
  { userId := "anonymous"
    profile := ⟨0, "anonymous@safetrade.com", "Usuario Anónimo"⟩
    raw := ⟨"anonymous", "access", ⟨0, "anonymous@safetrade.com", "Usuario Anónimo"⟩⟩ }

/-- JavaScript `String.split(" ")` on the character list: splits at
every space; `"".split(" ")` is `[""]`. -/
def splitOnSpaceAux : List Char → List Char → List (List Char)
  | [], acc => [acc.reverse]
  | c :: cs, acc =>
    if c = ' ' then acc.reverse :: splitOnSpaceAux cs []
    else splitOnSpaceAux cs (c :: acc)

/-- JavaScript `auth.split(" ")`. -/
def jsSplitOnSpace (s : String) : List String :=
  (splitOnSpaceAux s.toList []).map List.asString

/-- The guard's header parsing: `auth = header ?? ""`,
`[scheme, token] = auth.split(" ")`, then the test
`scheme !== "Bearer" || !token` (an absent second part and the empty
string are both falsy).  Returns the token exactly when the test fails. -/
def extractBearerToken (authorizationHeader : Option String) : Option String :=
  let parts := jsSplitOnSpace (authorizationHeader.getD "")
  if parts.headD "" = "Bearer" then
    match parts[1]? with
    | some t => if t = "" then none else some t
    | none => none
  else none

/-- `AnonymousAuthGuard.canActivate`, with JWT verification as an oracle
(`verify t = none` models `verifyAsync` throwing).  Returns the boolean
result and the `req.user` value after the call (`none` when no user was
attached). -/
def canActivate (authorizationHeader : Option String)
    (verify : String → Option AccessPayload) : Bool × Option AuthUser :=
  match extractBearerToken authorizationHeader with
  | none => (true, some anonymousUser)
  | some tok =>
    match verify tok with
    | none => (true, some anonymousUser)
    | some payload =>
      if payload.type = "access" then
        (true, some ⟨payload.sub, payload.profile, payload⟩)
      else (true, none)

/-- The mobile `Report` model fields that
`ReportsListViewModel.applyFilters` reads; `createdAt` is the `Date`
as a timestamp. -/
structure MobileReport where
  id : ℕ
  status : String
  attackType : String
  attackOrigin : Option String
  description : Option String
  createdAt : ℕ
  isAnonymous : Bool
deriving DecidableEq, Repr

/-- The mobile `ReportFilter` cases. -/
inductive MobileFilter where
  | todos
  | misReportes
  | nuevo
  | revisado
  | enInvestigacion
  | cerrado
deriving DecidableEq, Repr

/-- `ReportFilter.rawValue`. -/
def MobileFilter.rawValue : MobileFilter → String
  | MobileFilter.todos => "todos"
  | MobileFilter.misReportes => "mis_reportes"
  | MobileFilter.nuevo => "nuevo"
  | MobileFilter.revisado => "revisado"
  | MobileFilter.enInvestigacion => "en_investigacion"
  | MobileFilter.cerrado => "cerrado"

/-- Swift `String.contains` on the already lowercased strings. -/
def strContains (s sub : String) : Bool :=
  decide (sub.toList <:+: s.toList)

/-- The search predicate of `applyFilters`: display name, attack origin
or description contains the lowercased query.
(`Report.getAttackTypeDisplayName` lives in the mobile `Models` file,
which is not under `src/`; it is abstracted as the `displayName`
argument — the sortedness result below holds for every such
function.) -/
def matchesQuery (displayName : MobileReport → String) (q : String)
    (r : MobileReport) : Bool :=
  strContains (displayName r).toLower q ||
    (match r.attackOrigin with
     | some o => strContains o.toLower q
     | none => false) ||
    (match r.description with
     | some d => strContains d.toLower q
     | none => false)

/-- The descending-by-`createdAt` ordering of the final
`reports.sorted (createdAt, greater)` step. -/
def newestFirst (a b : MobileReport) : Prop := b.createdAt ≤ a.createdAt

instance : DecidableRel newestFirst := fun a b =>
  inferInstanceAs (Decidable (b.createdAt ≤ a.createdAt))

/-- `ReportsListViewModel.applyFilters` (ReportsListViewModel.swift
195-245) as a pure function of the published state: select the base
dataset by the selected filter, apply the search filter when the trimmed
query is non-empty, and sort by creation date, newest first.  Swift's
stable `sorted` is modelled by a stable insertion sort under the same
ordering. -/
def applyFilters (allReports userReports : List MobileReport)
    (selectedFilter : MobileFilter) (searchQuery : String)
    (displayName : MobileReport → String) : List MobileReport :=
  let base := match selectedFilter with
    | MobileFilter.todos => allReports
    | MobileFilter.misReportes => userReports
    | f => allReports.filter (fun r => r.status == f.rawValue)
  let searched :=
    if searchQuery.trim = "" then base
    else base.filter (matchesQuery displayName searchQuery.toLower)
  List.insertionSort newestFirst searched

/-- A backend report row as the trend aggregator consumes it. -/
structure ReportRow where
  id : ℕ
  attack_type : ℕ
  impact : ℕ
  is_anonymous : Bool
deriving DecidableEq, Repr

/-- `Math.round(q * 10) / 10`: rounding to one decimal (half up, for the
non-negative values that occur here). -/
def round1 (q : ℚ) : ℚ := ((⌊q * 10 + 1 / 2⌋ : ℤ) : ℚ) / 10

/-- The number of windowed reports of the attack type with catalog id
`i`. -/
def countAttack (reports : List ReportRow) (i : ℕ) : ℕ :=
  reports.countP (fun r => r.attack_type == i)

/-- Modelled from the spec: the trend aggregator
(`ComunidadService.getTendencias` / `ComunidadRepository` are not under
`src/`).  Per spec section 4.2 it groups the windowed reports by attack
type over the catalog, counts each group, and divides by the total count
to get a percentage rounded to one decimal; an empty window yields
all-zero distributions (an explicit special case) rather than failing. -/
def attackTypeDistribution (catalog : List CatalogEntry) (reports : List ReportRow) :
    List TrendEntry :=
  catalog.map (fun e =>
    { id := e.id
      name := e.name
      count := countAttack reports e.id
      percentage :=
        if reports.length = 0 then 0
        else round1 ((countAttack reports e.id : ℚ) / (reports.length : ℚ) * 100) })

/-- The sum of the `percentage` fields of a distribution. -/
def sumPercentages (d : List TrendEntry) : ℚ :=
  (d.map (fun t => t.percentage)).sum

/-- The running maximum of the main-threat scan: a later entry replaces
the current best only on a strictly greater count. -/
def pickMax (b : TrendEntry) : List TrendEntry → TrendEntry
  | [] => b
  | t :: ts => pickMax (if b.count < t.count then t else b) ts

/-- Modelled from the spec: the `summary.main_threat` of `getTendencias`
(not under `src/`) is the attack-type name with the highest count in the
window, ties broken by the lowest catalog id (first-inserted group wins
under insertion-order-stable iteration). -/
def mainThreat (catalog : List CatalogEntry) (reports : List ReportRow) : Option String :=
  match attackTypeDistribution catalog reports with
  | [] => none
  | t :: ts => some (pickMax t ts).name

end SafeTrade

namespace SafeTrade

/-- C1: with `total_reports > 0` the classifier is exactly the
three-tier strict-threshold decision table, and exactly 40.0 percent
high impact with top attack at most 60 is not red. -/
theorem determineAlertLevel_spec (hic tr : ℕ) (htr : 0 < tr)
    (trends : List TrendEntry) :
    ((determineAlertLevel ⟨hic, tr⟩ trends = AlertLevel.rojo ↔
        (40 < ((hic : ℚ) / (tr : ℚ)) * 100 ∨ 60 < topAttackPercentage trends)) ∧
     (determineAlertLevel ⟨hic, tr⟩ trends = AlertLevel.amarillo ↔
        (¬(40 < ((hic : ℚ) / (tr : ℚ)) * 100 ∨ 60 < topAttackPercentage trends) ∧
          (20 < ((hic : ℚ) / (tr : ℚ)) * 100 ∨ 40 < topAttackPercentage trends))) ∧
     (determineAlertLevel ⟨hic, tr⟩ trends = AlertLevel.verde ↔
        (¬(40 < ((hic : ℚ) / (tr : ℚ)) * 100 ∨ 60 < topAttackPercentage trends) ∧
         ¬(20 < ((hic : ℚ) / (tr : ℚ)) * 100 ∨ 40 < topAttackPercentage trends)))) ∧
    (((hic : ℚ) / (tr : ℚ)) * 100 = 40 → topAttackPercentage trends ≤ 60 →
      determineAlertLevel ⟨hic, tr⟩ trends ≠ AlertLevel.rojo) := by
  have hne : tr ≠ 0 := Nat.pos_iff_ne_zero.mp htr
  simp only [determineAlertLevel, highImpactPercentageJS, jsDivNat, jsMul100, jsGt,
    if_neg hne]
  constructor
  · refine ⟨?_, ?_, ?_⟩
    · constructor
      · intro h
        by_contra hc
        push_neg at hc
        simp [not_lt.mpr hc.1, not_lt.mpr hc.2] at h
        split at h <;> simp_all
      · intro h
        rcases h with h | h
        · simp [h]
        · simp [h]
    · constructor
      · intro h
        by_cases h1 : 40 < ((hic : ℚ) / (tr : ℚ)) * 100
        · simp [h1] at h
        · by_cases h2 : 60 < topAttackPercentage trends
          · simp [h2] at h
          · refine ⟨by tauto, ?_⟩
            by_contra hc
            push_neg at hc
            simp [not_lt.mpr hc.1, not_lt.mpr hc.2, h1, h2] at h
      · rintro ⟨hno, hyes⟩
        push_neg at hno
        have h1 := not_lt.mpr hno.1
        have h2 := not_lt.mpr hno.2
        rcases hyes with h | h
        · simp [h1, h2, h]
        · simp [h1, h2, h]
    · constructor
      · intro h
        constructor
        · rintro (h1 | h2)
          · simp [h1] at h
          · simp [h2] at h
        · rintro (h1 | h2)
          · by_cases hr1 : 40 < ((hic : ℚ) / (tr : ℚ)) * 100
            · simp [hr1] at h
            · by_cases hr2 : 60 < topAttackPercentage trends
              · simp [hr2] at h
              · simp [not_lt.mpr (le_of_not_lt hr1), not_lt.mpr (le_of_not_lt hr2),
                  h1] at h
          · by_cases hr1 : 40 < ((hic : ℚ) / (tr : ℚ)) * 100
            · simp [hr1] at h
            · by_cases hr2 : 60 < topAttackPercentage trends
              · simp [hr2] at h
              · simp [not_lt.mpr (le_of_not_lt hr1), not_lt.mpr (le_of_not_lt hr2),
                  h2] at h
      · rintro ⟨hn1, hn2⟩
        push_neg at hn1 hn2
        simp [not_lt.mpr hn1.1, not_lt.mpr hn1.2, not_lt.mpr hn2.1, not_lt.mpr hn2.2]
  · intro h40 h60
    simp only [h40, not_lt.mpr h60]
    norm_num
    decide

/-- C1 witness: at `highest_impact_count = 2`, `total_reports = 5`
(exactly 40.0 percent) and an empty distribution, the decision table
holds and the level is not red. -/
theorem determineAlertLevel_spec_witness :
    0 < 5 ∧ determineAlertLevel ⟨2, 5⟩ [] ≠ AlertLevel.rojo := by
  refine ⟨by decide, ?_⟩
  exact (determineAlertLevel_spec 2 5 (by decide) []).2 (by norm_num)
    (by norm_num [topAttackPercentage])

/-- C2 counterexample: with `total_reports = 0` (and
`highest_impact_count = 0`) the classifier does NOT always return
`verde`: a trend summary whose first attack percentage is 70 yields
`rojo`, because the high-impact percentage is NaN (every NaN comparison
is false) and the top-attack branch still fires.  There is no explicit
zero-total special case in the implementation. -/
theorem determineAlertLevel_zeroTotal_counterexample :
    determineAlertLevel ⟨0, 0⟩ [⟨1, "email", 7, 70⟩] = AlertLevel.rojo ∧
    highImpactPercentageJS ⟨0, 0⟩ = JSNum.nan := by
  constructor
  · rfl
  · rfl

/-- C2 (amended): when `total_reports = 0`, `highest_impact_count = 0`
and the attack-type distribution is empty (the situation that actually
arises when there are no reports), the classifier returns `verde` and
does not raise; but this is not an explicit special case: the computed
high-impact percentage is the NaN of `0/0`, and `verde` emerges because
both NaN threshold comparisons are false. -/
theorem determineAlertLevel_zeroTotal (analytics : CommunityOverview)
    (trends : List TrendEntry)
    (h0 : analytics.total_reports = 0)
    (h1 : analytics.highest_impact_count = 0)
    (h2 : trends = []) :
    determineAlertLevel analytics trends = AlertLevel.verde ∧
    highImpactPercentageJS analytics = JSNum.nan := by
  obtain ⟨hic, tr⟩ := analytics
  simp only at h0 h1
  subst h0 h1 h2
  constructor
  · rfl
  · rfl

/-- C2 witness: the amended statement at the concrete empty state. -/
theorem determineAlertLevel_zeroTotal_witness :
    determineAlertLevel ⟨0, 0⟩ [] = AlertLevel.verde ∧
    highImpactPercentageJS ⟨0, 0⟩ = JSNum.nan :=
  determineAlertLevel_zeroTotal ⟨0, 0⟩ [] rfl rfl rfl

/-- C6: for every catalog id absent from the supplied maps, each of the
three name getters and the legacy translation's id-to-name substitution
return the literal fallback string "Desconocido"; all are total
functions of the supplied maps (no exception path exists). -/
theorem desconocido_fallback (maps : CatalogMaps) (a b c : ℕ)
    (ha : mapGet maps.attackTypeMap a = none)
    (hb : mapGet maps.impactMap b = none)
    (hc : mapGet maps.statusMap c = none) :
    nameOrDesconocido maps.attackTypeMap a = "Desconocido" ∧
    nameOrDesconocido maps.impactMap b = "Desconocido" ∧
    nameOrDesconocido maps.statusMap c = "Desconocido" ∧
    toLegacySubstitution maps a b c = ("Desconocido", "Desconocido", "Desconocido") := by
  refine ⟨?_, ?_, ?_, ?_⟩ <;>
    simp [nameOrDesconocido, toLegacySubstitution, ha, hb, hc]

/-- C6 witness: id 99 is absent from the default lookup maps, and every
substitution falls back to "Desconocido". -/
theorem desconocido_fallback_witness :
    nameOrDesconocido (createLookupMaps createDefaultCatalogs).attackTypeMap 99 =
      "Desconocido" ∧
    toLegacySubstitution (createLookupMaps createDefaultCatalogs) 99 99 99 =
      ("Desconocido", "Desconocido", "Desconocido") := by
  have h := desconocido_fallback (createLookupMaps createDefaultCatalogs) 99 99 99
    (by decide) (by decide) (by decide)
  exact ⟨h.1, h.2.2.2⟩

/-- C7: the code at the failing input.  From a fresh service state, when
the catalog fetch throws, `getCatalogs` does return the built-in default
catalogs — but it never stores the fallback lookup maps, so
`getCatalogMaps` hands back the null `catalogMaps` and the subsequent
name resolutions throw a TypeError instead of returning a string.  This
contradicts the spec's contract that name resolution must never fail. -/
theorem getAttackTypeName_fetchFailure_raises :
    (getCatalogs initialServiceState 1000 none).1 = createDefaultCatalogs ∧
    (getCatalogMaps initialServiceState 1000 none).1 = none ∧
    (getAttackTypeName initialServiceState 1000 none 1).1 =
      Except.error JSError.typeError ∧
    (getImpactName initialServiceState 1000 none 1).1 =
      Except.error JSError.typeError ∧
    (getStatusName initialServiceState 1000 none 1).1 =
      Except.error JSError.typeError := by
  refine ⟨rfl, rfl, rfl, rfl, rfl⟩

/-- C8: catalog cache behaviour.  A successful first fetch at time `t0`
returns the fetched catalogs and stores them; a second call strictly
inside the 5-minute TTL returns the identical cached content, leaves the
state unchanged and performs no fetch; a call once the TTL has elapsed
performs exactly one refetch. -/
theorem getCatalogs_cache_spec (d : CatalogData) (t0 t1 t2 : ℕ)
    (f1 f2 : Option CatalogData)
    (h1 : t1 - t0 < CACHE_TIMEOUT) (h2 : CACHE_TIMEOUT ≤ t2 - t0) :
    (getCatalogs initialServiceState t0 (some d)).1 = d ∧
    (getCatalogs initialServiceState t0 (some d)).2.2 = true ∧
    (getCatalogs (getCatalogs initialServiceState t0 (some d)).2.1 t1 f1 =
      ((getCatalogs initialServiceState t0 (some d)).2.1.catalogCache.getD d,
       (getCatalogs initialServiceState t0 (some d)).2.1, false)) ∧
    (getCatalogs (getCatalogs initialServiceState t0 (some d)).2.1 t1 f1).1 = d ∧
    (getCatalogs (getCatalogs initialServiceState t0 (some d)).2.1 t2 f2).2.2 = true := by
  have hst : (getCatalogs initialServiceState t0 (some d)).2.1 =
      ⟨some d, some (createLookupMaps d), t0⟩ := rfl
  refine ⟨rfl, rfl, ?_, ?_, ?_⟩
  · rw [hst]
    simp only [getCatalogs, isCacheValid, Option.getD]
    simp [h1]
  · rw [hst]
    simp only [getCatalogs, isCacheValid]
    simp [h1]
  · rw [hst]
    simp only [getCatalogs, isCacheValid]
    simp only [decide_eq_true_eq]
    rw [if_neg (by omega)]
    cases f2 <;> rfl

/-- Helper: with unique names, first-match search by the name of a
member returns exactly that member. -/
theorem find_by_unique_name (l : List CatalogEntry)
    (hnd : (l.map CatalogEntry.name).Nodup) (e : CatalogEntry) (he : e ∈ l) :
    l.find? (fun x => x.name == e.name) = some e := by
  induction l with
  | nil => cases he
  | cons a t ih =>
    have hnd2 : (t.map CatalogEntry.name).Nodup := (List.nodup_cons.mp (by simpa using hnd)).2
    by_cases pa : a.name = e.name
    · have hea : e = a := by
        rcases List.mem_cons.mp he with h | h
        · exact h
        · exfalso
          have h2 : a.name ∈ t.map CatalogEntry.name := by
            rw [pa]
            exact List.mem_map_of_mem CatalogEntry.name h
          exact (List.nodup_cons.mp (by simpa using hnd)).1 h2
      subst hea
      rw [List.find?_cons_of_pos]
      simp
    · rw [List.find?_cons_of_neg]
      · apply ih hnd2
        rcases List.mem_cons.mp he with h | h
        · exact absurd (by rw [h]) pa
        · exact h
      · simp [pa]

/-- Helper: inverse name lookup undoes the id lookup when the id is a
nonzero catalog id whose entry has a truthy (non-empty) name and names
are unique. -/
theorem findIdByName_findNameById (l : List CatalogEntry)
    (hnd : (l.map CatalogEntry.name).Nodup) (o : Option ℕ)
    (ho : ∀ i, o = some i → i ≠ 0 ∧
      ∃ e, l.find? (fun x => x.id == i) = some e ∧ e.name ≠ "") :
    findIdByName l (findNameById l o) = o := by
  cases o with
  | none => rfl
  | some i =>
    obtain ⟨hi0, e, hfind, hname⟩ := ho i rfl
    have hid : e.id = i := by
      have := List.find?_some hfind
      simpa using this
    have hmem : e ∈ l := List.mem_of_find?_eq_some hfind
    rw [findNameById]
    rw [if_neg hi0, hfind]
    simp only [Option.map_some']
    rw [findIdByName]
    rw [if_neg hname]
    rw [find_by_unique_name l hnd e hmem]
    simp [hid]

/-- C4 (amended): the filter round trip holds for every normalized
filter whose catalog ids are nonzero, occur in the catalog snapshot and
resolve to a non-empty name (names unique within each catalog) — an id
of `0` or an empty name is dropped by the JavaScript truthiness checks;
and a report whose three name fields resolve consistently in the
catalog, whose description and attack origin are not empty strings,
translates to the legacy shape and back (under the spec-modelled
inverse) to the original report with derived fields stripped. -/
theorem transformer_roundTrip (c : CatalogData) (nf : NormalizedSearchFilters)
    (r : ReportWithDetails)
    (hndS : (c.statuses.map CatalogEntry.name).Nodup)
    (hndA : (c.attackTypes.map CatalogEntry.name).Nodup)
    (hndI : (c.impacts.map CatalogEntry.name).Nodup)
    (hS : ∀ i, nf.status = some i → i ≠ 0 ∧
      ∃ e, c.statuses.find? (fun x => x.id == i) = some e ∧ e.name ≠ "")
    (hA : ∀ i, nf.attack_type = some i → i ≠ 0 ∧
      ∃ e, c.attackTypes.find? (fun x => x.id == i) = some e ∧ e.name ≠ "")
    (hI : ∀ i, nf.impact = some i → i ≠ 0 ∧
      ∃ e, c.impacts.find? (fun x => x.id == i) = some e ∧ e.name ≠ "")
    (hra : c.attackTypes.find? (fun x => x.name == r.attack_type_name) =
      some ⟨r.attack_type, r.attack_type_name⟩)
    (hri : c.impacts.find? (fun x => x.name == r.impact_name) =
      some ⟨r.impact, r.impact_name⟩)
    (hrs : c.statuses.find? (fun x => x.name == r.status_name) =
      some ⟨r.status, r.status_name⟩)
    (hdesc : r.description ≠ some "")
    (horig : r.attack_origin ≠ some "") :
    fromLegacyFilters c (toLegacyFilters c nf) = nf ∧
    fromLegacyReport c (toLegacyReport r) = some (stripDerivedFields r) := by
  constructor
  · obtain ⟨q, ia, df, dt, s, a, i⟩ := nf
    simp only [fromLegacyFilters, toLegacyFilters]
    rw [findIdByName_findNameById c.statuses hndS s hS,
      findIdByName_findNameById c.attackTypes hndA a hA,
      findIdByName_findNameById c.impacts hndI i hI]
  · have h1 : (if (r.description.getD "") = "" then none
        else some (r.description.getD "")) = r.description := by
      cases hde : r.description with
      | none => simp
      | some d =>
        have hd : ¬(d = "") := fun h => hdesc (by rw [hde, h])
        simp [hd]
    have h2 : (if (r.attack_origin.getD "") = "" then none
        else some (r.attack_origin.getD "")) = r.attack_origin := by
      cases hor : r.attack_origin with
      | none => simp
      | some d =>
        have hd : ¬(d = "") := fun h => horig (by rw [hor, h])
        simp [hd]
    have h3 : (match r.evidence_url with
        | some u => [u]
        | none => ([] : List String)).head? = r.evidence_url := by
      cases r.evidence_url <;> rfl
    simp only [fromLegacyReport, toLegacyReport]
    rw [hra, hri, hrs]
    simp only [stripDerivedFields, Option.some.injEq]
    refine NormalizedReport.mk.injEq _ _ _ _ _ _ _ _ _ _ _ _ _ _ _ _ _ _ _ _ _ _ _ _ _ _
      |>.mpr ?_
    refine ⟨rfl, rfl, rfl, rfl, rfl, rfl, h1, h2, rfl, rfl, h3, rfl, rfl⟩

/-- C4 counterexample: the claim as stated fails.  In the catalog
snapshot whose statuses are `[{id 0, nuevo}, {id 2, revisado}]` (names
unique, id `0` occurs), the normalized filter `{status = 0}` does not
survive the round trip: JavaScript's `if (normalizedFilters.status)`
treats the id `0` as falsy, so `toLegacyFilters` drops the field and the
translation back yields no status filter. -/
theorem transformer_roundTrip_counterexample :
    (0 ∈ (CatalogData.mk [⟨1, "email"⟩] [⟨1, "ninguno"⟩]
        [⟨0, "nuevo"⟩, ⟨2, "revisado"⟩]).statuses.map CatalogEntry.id) ∧
    ((CatalogData.mk [⟨1, "email"⟩] [⟨1, "ninguno"⟩]
        [⟨0, "nuevo"⟩, ⟨2, "revisado"⟩]).statuses.map CatalogEntry.name).Nodup ∧
    fromLegacyFilters
      (CatalogData.mk [⟨1, "email"⟩] [⟨1, "ninguno"⟩] [⟨0, "nuevo"⟩, ⟨2, "revisado"⟩])
      (toLegacyFilters
        (CatalogData.mk [⟨1, "email"⟩] [⟨1, "ninguno"⟩] [⟨0, "nuevo"⟩, ⟨2, "revisado"⟩])
        ⟨none, none, none, none, some 0, none, none⟩) ≠
      ⟨none, none, none, none, some 0, none, none⟩ := by
  refine ⟨by decide, by decide, by decide⟩

/-- C4 witness: the amended round trip at a concrete filter and report
over the default catalogs. -/
theorem transformer_roundTrip_witness :
    fromLegacyFilters createDefaultCatalogs (toLegacyFilters createDefaultCatalogs
      ⟨some "q", some true, none, none, some 1, some 2, some 3⟩) =
      ⟨some "q", some true, none, none, some 1, some 2, some 3⟩ ∧
    fromLegacyReport createDefaultCatalogs (toLegacyReport
      ⟨7, some 5, 2, "SMS", 3, "robo_dinero", 1, "nuevo", "2024-01-01",
        some "desc", some "origen", false, none, some "http://e", "c", "u"⟩) =
      some (stripDerivedFields
      ⟨7, some 5, 2, "SMS", 3, "robo_dinero", 1, "nuevo", "2024-01-01",
        some "desc", some "origen", false, none, some "http://e", "c", "u"⟩) :=
  transformer_roundTrip createDefaultCatalogs
    ⟨some "q", some true, none, none, some 1, some 2, some 3⟩
    ⟨7, some 5, 2, "SMS", 3, "robo_dinero", 1, "nuevo", "2024-01-01",
      some "desc", some "origen", false, none, some "http://e", "c", "u"⟩
    (by decide) (by decide) (by decide)
    (by intro i hi; cases hi; exact ⟨by decide, ⟨1, "nuevo"⟩, by decide, by decide⟩)
    (by intro i hi; cases hi; exact ⟨by decide, ⟨2, "SMS"⟩, by decide, by decide⟩)
    (by intro i hi; cases hi; exact ⟨by decide, ⟨3, "robo_dinero"⟩, by decide, by decide⟩)
    (by decide) (by decide) (by decide) (by decide) (by decide)

/-- C9 counterexample: the guard does NOT always attach a user object.
When the Authorization header carries a Bearer token that verifies to a
payload whose `type` is not "access" (for instance a refresh token
signed with the same secret), `canActivate` returns true but leaves
`req.user` unset. -/
theorem canActivate_counterexample :
    canActivate (some "Bearer sometoken")
      (fun _ => some ⟨"7", "refresh", ⟨7, "u@safetrade.com", "U"⟩⟩) =
      (true, none) := by
  decide

/-- C9 (amended): `canActivate` returns true for every request; it
attaches the anonymous profile when the header is missing or non-Bearer
or the token is empty, and when verification throws; it attaches the
token's user when verification yields an access payload; but when
verification yields a payload whose type is not "access" it attaches no
user at all (the request proceeds with `req.user` unset). -/
theorem canActivate_spec (hdr : Option String)
    (verify : String → Option AccessPayload) :
    (canActivate hdr verify).1 = true ∧
    (extractBearerToken hdr = none →
      (canActivate hdr verify).2 = some anonymousUser) ∧
    (∀ t, extractBearerToken hdr = some t → verify t = none →
      (canActivate hdr verify).2 = some anonymousUser) ∧
    (∀ t p, extractBearerToken hdr = some t → verify t = some p →
      p.type = "access" →
      (canActivate hdr verify).2 = some ⟨p.sub, p.profile, p⟩) ∧
    (∀ t p, extractBearerToken hdr = some t → verify t = some p →
      p.type ≠ "access" → (canActivate hdr verify).2 = none) := by
  refine ⟨?_, ?_, ?_, ?_, ?_⟩
  · cases h : extractBearerToken hdr with
    | none => simp [canActivate, h]
    | some t =>
      cases hv : verify t with
      | none => simp [canActivate, h, hv]
      | some p =>
        by_cases hp : p.type = "access" <;> simp [canActivate, h, hv, hp]
  · intro h
    simp [canActivate, h]
  · intro t ht hv
    simp [canActivate, ht, hv]
  · intro t p ht hv hp
    simp [canActivate, ht, hv, hp]
  · intro t p ht hv hp
    simp [canActivate, ht, hv, hp]

/-- C9 witness: a request without an Authorization header passes and
carries the anonymous profile. -/
theorem canActivate_spec_witness :
    (canActivate none (fun _ => none)).1 = true ∧
    (canActivate none (fun _ => none)).2 = some anonymousUser :=
  ⟨(canActivate_spec none (fun _ => none)).1,
   (canActivate_spec none (fun _ => none)).2.1 (by decide)⟩

/-- C10: after `applyFilters`, for every state of the report lists,
every selected filter, every search query (and every display-name
function), the resulting list is sorted by `createdAt` in descending
order — newest first. -/
theorem applyFilters_sorted (allReports userReports : List MobileReport)
    (selectedFilter : MobileFilter) (searchQuery : String)
    (displayName : MobileReport → String) :
    List.Sorted newestFirst
      (applyFilters allReports userReports selectedFilter searchQuery displayName) := by
  haveI : IsTotal MobileReport newestFirst :=
    ⟨fun a b => le_total b.createdAt a.createdAt⟩
  haveI : IsTrans MobileReport newestFirst :=
    ⟨fun _ _ _ h1 h2 => le_trans h2 h1⟩
  simp only [applyFilters]
  exact List.sorted_insertionSort newestFirst _

/-- Helper: one-decimal rounding moves a value by at most 1/20. -/
theorem round1_error (q : ℚ) : |round1 q - q| ≤ 1 / 20 := by
  have h1 : ((⌊q * 10 + 1 / 2⌋ : ℤ) : ℚ) ≤ q * 10 + 1 / 2 := Int.floor_le _
  have h2 : q * 10 + 1 / 2 - 1 < ((⌊q * 10 + 1 / 2⌋ : ℤ) : ℚ) := Int.sub_one_lt_floor _
  rw [round1, abs_le]
  constructor <;> linarith

/-- Helper: list sums distribute over pointwise addition. -/
theorem list_sum_map_add {α : Type} (l : List α) (f g : α → ℕ) :
    (l.map (fun x => f x + g x)).sum = (l.map f).sum + (l.map g).sum := by
  induction l with
  | nil => rfl
  | cons a t ih =>
    simp only [List.map_cons, List.sum_cons, ih]
    omega

/-- Helper: with distinct catalog ids, a present id matches exactly one
group. -/
theorem sum_indicator_unique (catalog : List CatalogEntry) (t : ℕ)
    (hnd : (catalog.map CatalogEntry.id).Nodup)
    (hm : t ∈ catalog.map CatalogEntry.id) :
    (catalog.map (fun e => if t = e.id then 1 else 0)).sum = 1 := by
  induction catalog with
  | nil => cases hm
  | cons a cs ih =>
    rw [List.map_cons] at hnd hm
    rw [List.map_cons, List.sum_cons]
    by_cases h : t = a.id
    · have ht : t ∉ cs.map CatalogEntry.id := by
        rw [h]
        exact (List.nodup_cons.mp hnd).1
      have hz : (cs.map (fun e => if t = e.id then 1 else 0)).sum = 0 := by
        apply List.sum_eq_zero
        intro x hx
        obtain ⟨e, he, rfl⟩ := List.mem_map.mp hx
        have hne : ¬t = e.id := fun hh => ht (hh ▸ List.mem_map_of_mem _ he)
        exact if_neg hne
      rw [if_pos h, hz]
    · have hm2 : t ∈ cs.map CatalogEntry.id := by
        rcases List.mem_cons.mp hm with h1 | h1
        · exact absurd h1 h
        · exact h1
      have hnd2 := (List.nodup_cons.mp hnd).2
      rw [if_neg h, zero_add]
      exact ih hnd2 hm2

/-- Helper: the per-group counts sum to the total when ids are distinct
and every report's attack type occurs in the catalog. -/
theorem sum_countAttack (catalog : List CatalogEntry) (reports : List ReportRow)
    (hnd : (catalog.map CatalogEntry.id).Nodup)
    (hmem : ∀ r ∈ reports, r.attack_type ∈ catalog.map CatalogEntry.id) :
    (catalog.map (fun e => countAttack reports e.id)).sum = reports.length := by
  induction reports with
  | nil => simp [countAttack]
  | cons r rs ih =>
    have ih2 := ih (fun x hx => hmem x (List.mem_cons_of_mem _ hx))
    have hr := hmem r (List.mem_cons_self _ _)
    simp only [countAttack] at ih2 ⊢
    simp only [List.countP_cons, beq_iff_eq]
    rw [list_sum_map_add catalog
      (fun e => rs.countP (fun x => x.attack_type == e.id))
      (fun e => if r.attack_type = e.id then 1 else 0)]
    rw [ih2, sum_indicator_unique catalog r.attack_type hnd hr]
    simp [List.length_cons]

/-- Helper: the summed rounding error over a list is at most its length
times 1/20. -/
theorem sum_round1_error (l : List ℚ) :
    |(l.map round1).sum - l.sum| ≤ (l.length : ℚ) * (1 / 20) := by
  induction l with
  | nil => simp
  | cons q t ih =>
    simp only [List.map_cons, List.sum_cons, List.length_cons]
    have h1 := round1_error q
    have habs : |round1 q + (t.map round1).sum - (q + t.sum)| ≤
        |round1 q - q| + |(t.map round1).sum - t.sum| := by
      have := abs_add (round1 q - q) ((t.map round1).sum - t.sum)
      calc |round1 q + (t.map round1).sum - (q + t.sum)|
          = |(round1 q - q) + ((t.map round1).sum - t.sum)| := by ring_nf
        _ ≤ |round1 q - q| + |(t.map round1).sum - t.sum| := this
    have hc : ((t.length + 1 : ℕ) : ℚ) = (t.length : ℚ) + 1 := by push_cast; ring
    rw [hc]
    calc |round1 q + (t.map round1).sum - (q + t.sum)|
        ≤ |round1 q - q| + |(t.map round1).sum - t.sum| := habs
      _ ≤ 1 / 20 + (t.length : ℚ) * (1 / 20) := add_le_add h1 ih
      _ = ((t.length : ℚ) + 1) * (1 / 20) := by ring

/-- Helper: list sums pull out a constant right factor. -/
theorem list_sum_map_mul_right {α : Type} (l : List α) (f : α → ℚ) (r : ℚ) :
    (l.map (fun x => f x * r)).sum = (l.map f).sum * r := by
  induction l with
  | nil => simp
  | cons a t ih =>
    simp only [List.map_cons, List.sum_cons, ih]
    ring

/-- Helper: the exact (unrounded) percentages sum to exactly 100 on a
non-empty window. -/
theorem sum_exact_percentages (catalog : List CatalogEntry) (reports : List ReportRow)
    (hnd : (catalog.map CatalogEntry.id).Nodup)
    (hmem : ∀ r ∈ reports, r.attack_type ∈ catalog.map CatalogEntry.id)
    (hT : reports.length ≠ 0) :
    (catalog.map (fun e =>
      (countAttack reports e.id : ℚ) / (reports.length : ℚ) * 100)).sum = 100 := by
  have hfun : (fun (e : CatalogEntry) =>
        (countAttack reports e.id : ℚ) / (reports.length : ℚ) * 100) =
      (fun (e : CatalogEntry) =>
        ((countAttack reports e.id : ℕ) : ℚ) * (100 / (reports.length : ℚ))) := by
    funext e
    field_simp
  rw [hfun]
  rw [list_sum_map_mul_right catalog (fun e => ((countAttack reports e.id : ℕ) : ℚ))
    (100 / (reports.length : ℚ))]
  have hcast : (catalog.map (fun (e : CatalogEntry) =>
      ((countAttack reports e.id : ℕ) : ℚ))).sum = ((reports.length : ℕ) : ℚ) := by
    rw [← sum_countAttack catalog reports hnd hmem, Nat.cast_list_sum, List.map_map]
    rfl
  rw [hcast]
  have : ((reports.length : ℕ) : ℚ) ≠ 0 := by
    exact_mod_cast hT
  field_simp

/-- C3 (amended): for a non-empty window whose report attack types all
occur in the catalog (catalog ids distinct), the rounded percentages of
the attack-type distribution sum to 100 within plus or minus 1/20 per
group (0.3 for the six seeded attack types) — the claimed 0.1 tolerance
is too tight; and for an empty report set the aggregator returns the
all-zero distribution (percentages summing to 0) and does not raise. -/
theorem getTrends_percentages (catalog : List CatalogEntry) (reports : List ReportRow)
    (hnd : (catalog.map CatalogEntry.id).Nodup)
    (hmem : ∀ r ∈ reports, r.attack_type ∈ catalog.map CatalogEntry.id)
    (hne : reports ≠ []) :
    |sumPercentages (attackTypeDistribution catalog reports) - 100| ≤
      (catalog.length : ℚ) * (1 / 20) ∧
    (sumPercentages (attackTypeDistribution catalog []) = 0 ∧
      ∀ t ∈ attackTypeDistribution catalog [], t.count = 0 ∧ t.percentage = 0) := by
  refine ⟨?_, ?_, ?_⟩
  · have hT : reports.length ≠ 0 := by
      simpa using fun h => hne (List.length_eq_zero.mp h)
    have key : sumPercentages (attackTypeDistribution catalog reports) =
        ((catalog.map (fun e =>
          (countAttack reports e.id : ℚ) / (reports.length : ℚ) * 100)).map round1).sum := by
      rw [sumPercentages, attackTypeDistribution, List.map_map, List.map_map]
      congr 1
      apply List.map_congr_left
      intro e he
      simp [hT]
    rw [key]
    have hb := sum_round1_error (catalog.map (fun e =>
      (countAttack reports e.id : ℚ) / (reports.length : ℚ) * 100))
    rw [sum_exact_percentages catalog reports hnd hmem hT, List.length_map] at hb
    exact hb
  · simp [sumPercentages, attackTypeDistribution, List.map_map, Function.comp]
    exact List.sum_eq_zero (fun x hx => by
      obtain ⟨e, he, rfl⟩ := List.mem_map.mp hx
      rfl)
  · intro t ht
    obtain ⟨e, he, rfl⟩ := List.mem_map.mp ht
    exact ⟨by simp [countAttack], by simp⟩

/-- C3 counterexample: the 0.1 tolerance stated by the claim fails.
With the six default attack types and one report of each, every group is
100/6 percent, which rounds to 16.7; the distribution percentages sum to
100.2, which differs from 100 by 0.2 > 0.1. -/
theorem getTrends_tolerance_counterexample :
    sumPercentages (attackTypeDistribution createDefaultCatalogs.attackTypes
      [⟨1, 1, 1, true⟩, ⟨2, 2, 1, true⟩, ⟨3, 3, 1, true⟩,
       ⟨4, 4, 1, true⟩, ⟨5, 5, 1, true⟩, ⟨6, 6, 1, true⟩]) = 501 / 5 ∧
    ¬(|(501 / 5 : ℚ) - 100| ≤ 1 / 10) := by
  constructor
  · simp only [sumPercentages, attackTypeDistribution, createDefaultCatalogs, countAttack,
      List.countP_cons, List.countP_nil, beq_iff_eq, List.map_cons, List.map_nil,
      List.sum_cons, List.sum_nil, List.length_cons, List.length_nil]
    norm_num [round1]
  · rw [abs_of_pos (by norm_num)]
    norm_num

/-- C3 witness: the amended bound and the empty-window case at the six
default attack types with one report of each. -/
theorem getTrends_percentages_witness :
    |sumPercentages (attackTypeDistribution createDefaultCatalogs.attackTypes
      [⟨1, 1, 1, true⟩, ⟨2, 2, 1, true⟩, ⟨3, 3, 1, true⟩,
       ⟨4, 4, 1, true⟩, ⟨5, 5, 1, true⟩, ⟨6, 6, 1, true⟩]) - 100| ≤
      ((createDefaultCatalogs.attackTypes.length : ℕ) : ℚ) * (1 / 20) ∧
    sumPercentages (attackTypeDistribution createDefaultCatalogs.attackTypes []) = 0 :=
  ⟨(getTrends_percentages createDefaultCatalogs.attackTypes
      [⟨1, 1, 1, true⟩, ⟨2, 2, 1, true⟩, ⟨3, 3, 1, true⟩,
       ⟨4, 4, 1, true⟩, ⟨5, 5, 1, true⟩, ⟨6, 6, 1, true⟩]
      (by decide) (by decide) (by decide)).1,
   (getTrends_percentages createDefaultCatalogs.attackTypes
      [⟨1, 1, 1, true⟩, ⟨2, 2, 1, true⟩, ⟨3, 3, 1, true⟩,
       ⟨4, 4, 1, true⟩, ⟨5, 5, 1, true⟩, ⟨6, 6, 1, true⟩]
      (by decide) (by decide) (by decide)).2.1⟩

/-- Helper: the main-threat scan yields a member of the list. -/
theorem pickMax_mem (b : TrendEntry) (l : List TrendEntry) :
    pickMax b l ∈ b :: l := by
  induction l generalizing b with
  | nil => simp [pickMax]
  | cons t ts ih =>
    rw [pickMax]
    by_cases h : b.count < t.count
    · rw [if_pos h]
      rcases List.mem_cons.mp (ih t) with h1 | h1
      · rw [h1]
        exact List.mem_cons_of_mem _ (List.mem_cons_self _ _)
      · exact List.mem_cons_of_mem _ (List.mem_cons_of_mem _ h1)
    · rw [if_neg h]
      rcases List.mem_cons.mp (ih b) with h1 | h1
      · rw [h1]
        exact List.mem_cons_self _ _
      · exact List.mem_cons_of_mem _ (List.mem_cons_of_mem _ h1)

/-- Helper: the main-threat scan yields a maximal count. -/
theorem pickMax_count_ge (b : TrendEntry) (l : List TrendEntry) :
    ∀ x ∈ b :: l, x.count ≤ (pickMax b l).count := by
  induction l generalizing b with
  | nil =>
    intro x hx
    rcases List.mem_cons.mp hx with h | h
    · rw [h, pickMax]
    · cases h
  | cons t ts ih =>
    intro x hx
    rw [pickMax]
    have hb : b.count ≤ (if b.count < t.count then t else b).count := by
      by_cases h : b.count < t.count
      · rw [if_pos h]
        omega
      · rw [if_neg h]
    have htc : t.count ≤ (if b.count < t.count then t else b).count := by
      by_cases h : b.count < t.count
      · rw [if_pos h]
      · rw [if_neg h]
        omega
    have hself := ih (if b.count < t.count then t else b)
      (if b.count < t.count then t else b) (List.mem_cons_self _ _)
    rcases List.mem_cons.mp hx with h | h
    · rw [h]
      exact le_trans hb hself
    · rcases List.mem_cons.mp h with h1 | h1
      · rw [h1]
        exact le_trans htc hself
      · exact ih (if b.count < t.count then t else b) x (List.mem_cons_of_mem _ h1)

/-- Helper: under strictly increasing ids (insertion order), the
main-threat scan yields the lowest id among count-maximal entries. -/
theorem pickMax_min_id (b : TrendEntry) (l : List TrendEntry)
    (hp : (b :: l).Pairwise (fun a c => a.id < c.id)) :
    ∀ x ∈ b :: l, x.count = (pickMax b l).count → (pickMax b l).id ≤ x.id := by
  induction l generalizing b with
  | nil =>
    intro x hx hc
    rcases List.mem_cons.mp hx with h | h
    · rw [h, pickMax]
    · cases h
  | cons t ts ih =>
    intro x hx hc
    rw [pickMax] at hc ⊢
    by_cases h : b.count < t.count
    · rw [if_pos h] at hc ⊢
      have hp2 : (t :: ts).Pairwise (fun a c => a.id < c.id) :=
        (List.pairwise_cons.mp hp).2
      rcases List.mem_cons.mp hx with h1 | h1
      · exfalso
        have hge : t.count ≤ (pickMax t ts).count :=
          pickMax_count_ge t ts t (List.mem_cons_self _ _)
        rw [h1] at hc
        omega
      · exact ih t hp2 x h1 hc
    · rw [if_neg h] at hc ⊢
      have hpb : (b :: ts).Pairwise (fun a c => a.id < c.id) := by
        rcases List.pairwise_cons.mp hp with ⟨hbt, hpt⟩
        rcases List.pairwise_cons.mp hpt with ⟨hts, hpts⟩
        exact List.pairwise_cons.mpr
          ⟨fun y hy => hbt y (List.mem_cons_of_mem _ hy), hpts⟩
      rcases List.mem_cons.mp hx with h1 | h1
      · exact ih b hpb x (by rw [h1]; exact List.mem_cons_self _ _) hc
      · rcases List.mem_cons.mp h1 with h2 | h2
        · have hble : b.count ≤ (pickMax b ts).count :=
            pickMax_count_ge b ts b (List.mem_cons_self _ _)
          have ht_le_b : t.count ≤ b.count := Nat.not_lt.mp h
          rw [h2] at hc
          have hbeq : b.count = (pickMax b ts).count := by omega
          have hres_b : (pickMax b ts).id ≤ b.id :=
            ih b hpb b (List.mem_cons_self _ _) hbeq
          have hbt_id : b.id < t.id :=
            (List.pairwise_cons.mp hp).1 t (List.mem_cons_self _ _)
          rw [h2]
          omega
        · exact ih b hpb x (List.mem_cons_of_mem _ h2) hc

/-- C5: over a catalog listed in strictly increasing id order (the
auto-increment insertion order) the spec-modelled main threat is the
name of a distribution entry whose count is maximal, and among the
count-maximal entries it has the lowest catalog id. -/
theorem mainThreat_spec (catalog : List CatalogEntry) (reports : List ReportRow)
    (hcat : catalog ≠ []) (hrep : reports ≠ [])
    (hsorted : catalog.Pairwise (fun a b => a.id < b.id)) :
    ∃ e ∈ attackTypeDistribution catalog reports,
      mainThreat catalog reports = some e.name ∧
      (∀ t ∈ attackTypeDistribution catalog reports, t.count ≤ e.count) ∧
      (∀ t ∈ attackTypeDistribution catalog reports,
        t.count = e.count → e.id ≤ t.id) := by
  have hpair : (attackTypeDistribution catalog reports).Pairwise
      (fun a c => a.id < c.id) := by
    rw [attackTypeDistribution]
    rw [List.pairwise_map]
    exact hsorted
  cases hD : attackTypeDistribution catalog reports with
  | nil =>
    exfalso
    apply hcat
    have := congrArg List.length hD
    rw [attackTypeDistribution, List.length_map] at this
    exact List.length_eq_zero.mp this
  | cons t ts =>
    rw [hD] at hpair
    refine ⟨pickMax t ts, ?_, ?_, ?_, ?_⟩
    · exact pickMax_mem t ts
    · rw [mainThreat, hD]
    · exact pickMax_count_ge t ts
    · intro x hx hxc
      exact pickMax_min_id t ts hpair x hx hxc

/-- C5 witness: with two SMS reports and one whatsapp report over the
default catalog, the main threat achieves the maximal count with the
lowest id among maximal entries. -/
theorem mainThreat_spec_witness :
    ∃ e ∈ attackTypeDistribution createDefaultCatalogs.attackTypes
        [⟨1, 2, 1, true⟩, ⟨2, 2, 1, false⟩, ⟨3, 3, 1, true⟩],
      mainThreat createDefaultCatalogs.attackTypes
        [⟨1, 2, 1, true⟩, ⟨2, 2, 1, false⟩, ⟨3, 3, 1, true⟩] = some e.name ∧
      (∀ t ∈ attackTypeDistribution createDefaultCatalogs.attackTypes
          [⟨1, 2, 1, true⟩, ⟨2, 2, 1, false⟩, ⟨3, 3, 1, true⟩], t.count ≤ e.count) ∧
      (∀ t ∈ attackTypeDistribution createDefaultCatalogs.attackTypes
          [⟨1, 2, 1, true⟩, ⟨2, 2, 1, false⟩, ⟨3, 3, 1, true⟩],
        t.count = e.count → e.id ≤ t.id) :=
  mainThreat_spec createDefaultCatalogs.attackTypes
    [⟨1, 2, 1, true⟩, ⟨2, 2, 1, false⟩, ⟨3, 3, 1, true⟩]
    (by decide) (by decide) (by decide)

/-- C8 witness: fetch at time 0, cache hit at time 1, refetch once the
TTL has elapsed at time 300000. -/
theorem getCatalogs_cache_spec_witness :
    (1 - 0 < CACHE_TIMEOUT ∧ CACHE_TIMEOUT ≤ 300000 - 0) ∧
    ((getCatalogs (getCatalogs initialServiceState 0 (some createDefaultCatalogs)).2.1
        1 none).1 = createDefaultCatalogs ∧
     (getCatalogs (getCatalogs initialServiceState 0 (some createDefaultCatalogs)).2.1
        300000 none).2.2 = true) := by
  refine ⟨⟨by decide, by decide⟩, ?_, ?_⟩
  · exact (getCatalogs_cache_spec createDefaultCatalogs 0 1 300000 none none
      (by decide) (by decide)).2.2.2.1
  · exact (getCatalogs_cache_spec createDefaultCatalogs 0 1 300000 none none
      (by decide) (by decide)).2.2.2.2

end SafeTrade
